import Mathlib

/-!
Verification development for the PublishingTrends ingestion pipeline
(src/ingestion/scraper.py and src/ingestion/utils.py).

The Python code is shallowly embedded: every network interaction is
represented by an explicit response value handed to the embedded function,
file writes are explicit state (association lists keyed by file name), and
Python exceptions that the code does not catch are `Except.error` results.
Directory prefixes (json_dir, cover_img_dir) are constant in every claim, so
artifact names carry only the file name within the directory.
-/

namespace PublishingTrends

/-! ## JSON-shaped values as the code touches them

The scraper reads `content[\x7b'data'\x7d]['products']` and, per product,
top-level fields with `prod.get(field)` plus
`prod['custom_attributes'][field]`.  We model exactly the three nesting
levels the code distinguishes: scalar payloads are opaque atoms. -/

/-- Value stored in one product field: either an opaque scalar payload
(string, list, number — the code never inspects these) or a nested object,
as `custom_attributes` is. -/
inductive PVal where
  | atom (s : String)
  | customObj (fields : List (String × String))
  deriving DecidableEq, Repr

/-- One upstream product entry: a dictionary from field name to value. -/
abbrev Product := List (String × PVal)

/-- Value of a key inside `content['data']`: either an opaque scalar or the
product list the code iterates. -/
inductive MidVal where
  | atom (s : String)
  | productList (ps : List Product)
  deriving DecidableEq, Repr

/-- Value of a top-level key of the parsed JSON body. -/
inductive TopVal where
  | atom (s : String)
  | obj (fields : List (String × MidVal))
  deriving DecidableEq, Repr

/-- A BookRecord as built by `retrieve_book_page`: insertion-ordered field
names mapped to the extracted value; `none` is Python `None`, i.e. the field
was absent upstream (`prod.get(field)` misses). -/
abbrev Record := List (String × Option PVal)

/-- Exceptions of the Python code that `retrieve_book_page` does not catch. -/
inductive Exn where
  | keyError          -- dict subscript on a missing key
  | typeError         -- subscript on a non-dict value
  | contentTypeError  -- response.json() on a non-JSON body
  deriving DecidableEq, Repr

/-! ## URLs and scraper parameters

`build_book_page_url` URL-encodes the page number into the query string and
`page_num_from_url` parses it back out with `parse_qs`; the round trip is
lossless, so a page URL is modelled by the page number it encodes. -/

/-- A search-API page URL, identified by the page number its query string
carries. -/
structure Url where
  page : Nat
  deriving DecidableEq, Repr

/-- The `ScraperParams` dataclass fields the embedded functions read.
Directory fields are omitted: they are constant path prefixes. -/
structure ScraperParams where
  start_date : String
  end_date : String
  entries_per_page : Nat
  img_size : String := "500w"
  deriving DecidableEq, Repr

/-- `ScraperParams.build_book_page_url`. -/
def build_book_page_url (_params : ScraperParams) (page_num : Nat) : Url :=
  ⟨page_num⟩

/-- `ScraperParams.page_num_from_url`: extracts the `page` query parameter,
returned as a string (`parse_qs` yields strings). -/
def page_num_from_url (_params : ScraperParams) (u : Url) : String :=
  toString u.page

/-- Python string conversion used by the f-string in `build_cover_img_url`
when the stored `cover_image` value is interpolated; `None` renders as
"None". A dict value would render as its repr; the exact text is irrelevant
to every claim. -/
def pvalStr : Option PVal → String
  | none => "None"
  | some (.atom s) => s
  | some (.customObj _) => "dict"

/-- `ScraperParams.build_cover_img_url`: appends the fixed size suffix. -/
def build_cover_img_url (params : ScraperParams) (base : Option PVal) : String :=
  pvalStr base ++ params.img_size

/-! ## Cover fetch -/

/-- Outcome of awaiting one cover HTTP request: a connection-level error
(`aiohttp.ClientConnectorError`) or a response with a status and body. -/
inductive CoverResp where
  | connError
  | resp (status : Nat) (bytes : String)
  deriving DecidableEq, Repr

/-- Python `url.split('/')[-2]`, the ISBN segment of a cover URL. -/
def isbn_of_url (url : String) : String :=
  ((url.splitOn "/").reverse.drop 1).headD ""

/-- `retrieve_cover`: writes the body to `\x7bisbn\x7d.jpeg` only on HTTP 200 and
returns the success flag; a `ClientConnectorError` is caught and yields
`false`. Result: (is_ok, file written as name-and-bytes, if any). The file
write itself is modelled as succeeding (an OS write error would propagate,
which no claim exercises). -/
def retrieve_cover (url : String) (resp : CoverResp) : Bool × Option (String × String) :=
  match resp with
  | .connError => (false, none)
  | .resp status bytes =>
      if status = 200 then (true, some (isbn_of_url url ++ ".jpeg", bytes))
      else (false, none)

/-! ## Page fetch -/

/-- Outcome of awaiting one page HTTP request: connection-level error, or a
response whose body either fails JSON decoding (`none`; `response.json()`
raises) or parses to a top-level JSON object. -/
inductive PageResp where
  | connError
  | ok (body : Option (List (String × TopVal)))
  deriving DecidableEq, Repr

/-- `content['data']['products']`: two dictionary subscripts, each raising
KeyError when the key is absent and TypeError when the value subscripted is
not a dictionary, then iteration over the product list. -/
def getProducts (content : List (String × TopVal)) : Except Exn (List Product) :=
  match content.lookup "data" with
  | none => .error .keyError
  | some (.atom _) => .error .typeError
  | some (.obj fields) =>
      match fields.lookup "products" with
      | none => .error .keyError
      | some (.atom _) => .error .typeError
      | some (.productList ps) => .ok ps

/-- The eight top-level fields read with `prod.get(field)`. -/
def base_fields : List String :=
  ["product_id", "title", "authors", "description", "language", "categories",
   "url", "cover_image"]

/-- The four fields read with `prod['custom_attributes'][field]`. -/
def custom_attr_fields : List String :=
  ["publication_date", "publishers", "page_count", "average_rating"]

/-- `prod['custom_attributes'][field]` for one field: raises KeyError when
`custom_attributes` or the field is absent, TypeError when
`custom_attributes` is not a dictionary. -/
def getCustomAttr (prod : Product) (field : String) : Except Exn PVal :=
  match List.lookup "custom_attributes" prod with
  | none => .error .keyError
  | some (.atom _) => .error .typeError
  | some (.customObj ca) =>
      match ca.lookup field with
      | none => .error .keyError
      | some v => .ok (.atom v)

/-- Folds the custom-attribute fields onto the record, stopping at the first
raised exception, mirroring the Python for-loop. -/
def addCustomAttrs (prod : Product) : List String → Record → Except Exn Record
  | [], data => .ok data
  | f :: rest, data =>
      match getCustomAttr prod f with
      | .error e => .error e
      | .ok v => addCustomAttrs prod rest (data ++ [(f, some v)])

/-- The per-product extraction body of `retrieve_book_page`: `data` maps each
base field to `prod.get(field)` (absent fields recorded as `none`), then each
custom-attribute field is added by raising subscripts. -/
def extract_record (prod : Product) : Except Exn Record :=
  let data : Record := base_fields.map (fun f => (f, List.lookup f prod))
  addCustomAttrs prod custom_attr_fields data

/-- The per-product loop of `retrieve_book_page`: extract the record, fetch
its cover through the shared limiter (the response for the i-th product of
the page is `covers i`), and append `(record, int(cover_status))`. Any
exception raised by extraction propagates, as the `except` clause catches
only `ClientConnectorError`. -/
def processProducts (params : ScraperParams) (covers : Nat → CoverResp) :
    Nat → List Product → Except Exn (List (Record × Nat))
  | _, [] => .ok []
  | i, prod :: rest =>
      match extract_record prod with
      | .error e => .error e
      | .ok data =>
          let cover_url := build_cover_img_url params ((List.lookup "cover_image" data).join)
          let cover_status := (retrieve_cover cover_url (covers i)).1
          match processProducts params covers (i + 1) rest with
          | .error e => .error e
          | .ok tail => .ok ((data, if cover_status then 1 else 0) :: tail)

/-- Fetch outcome tuple `(elems, url, is_ok)` returned by
`retrieve_book_page`. -/
structure Outcome where
  elems : List (Record × Nat)
  url : Url
  ok : Bool
  deriving DecidableEq, Repr

/-- `retrieve_book_page`: on `ClientConnectorError` for the page request the
exception is caught, leaving `elems = []` and `is_ok = False`; on a JSON
body the products are located and processed, setting `is_ok = True` only
after the loop completes; any other exception (KeyError, TypeError,
ContentTypeError) is not caught and propagates. -/
def retrieve_book_page (url : Url) (resp : PageResp) (params : ScraperParams)
    (covers : Nat → CoverResp) : Except Exn Outcome :=
  match resp with
  | .connError => .ok ⟨[], url, false⟩
  | .ok none => .error .contentTypeError
  | .ok (some content) =>
      match getProducts content with
      | .error e => .error e
      | .ok products =>
          match processProducts params covers 0 products with
          | .error e => .error e
          | .ok elems => .ok ⟨elems, url, true⟩

/-- The per-page environment `main` runs each coroutine against: the page
response and the cover responses for that page, in product order. -/
structure PageEnv where
  resp : PageResp
  covers : Nat → CoverResp

/-- `main(urls, params, semaphore)`: gathers `retrieve_book_page` over the
batch. `tqdm.gather` with default `return_exceptions` re-raises the first
exception any coroutine raises, so one raising page fails the whole batch. -/
def fetch_batch (params : ScraperParams) (env : Url → PageEnv) :
    List Url → Except Exn (List Outcome)
  | [] => .ok []
  | u :: rest =>
      match retrieve_book_page u (env u).resp params (env u).covers with
      | .error e => .error e
      | .ok o =>
          match fetch_batch params env rest with
          | .error e => .error e
          | .ok os => .ok (o :: os)

/-! ## Result serializer and two-pass orchestration

The json_dir filesystem is an association list from artifact file name to
the record list the file holds; `open(path, 'w')` + `json.dump` replaces any
previous content of that name. -/

/-- The json_dir contents: artifact file name to serialized record list. -/
abbrev FS := List (String × List Record)

/-- Overwriting file write: any previous entry under the name is replaced. -/
def fsWrite (fs : FS) (name : String) (content : List Record) : FS :=
  fs.filter (fun e => e.1 ≠ name) ++ [(name, content)]

/-- Total number of records across all artifacts of the store. -/
def totalBooks (fs : FS) : Nat :=
  (fs.map (fun e => e.2.length)).sum

/-- Records stored under a given artifact name (summed, in case of duplicate
names; a store built by `fsWrite` never has duplicates). -/
def booksUnder (fs : FS) (name : String) : Nat :=
  ((fs.filter (fun e => e.1 = name)).map (fun e => e.2.length)).sum

/-- Artifact file name a page outcome is written to: `f'\x7bpage_num\x7d.json'`. -/
def artifactName (params : ScraperParams) (o : Outcome) : String :=
  page_num_from_url params o.url ++ ".json"

/-- `serialize_results`: for every outcome in the batch — the page-level
success flag is ignored (`for res, url, _ in results`) — write the records
(cover flags stripped) to `\x7bpage_num\x7d.json` and accumulate
`book_count += len(serialize_data)` and `cover_count += sum(flags)`. -/
def serialize_results (results : List Outcome) (params : ScraperParams)
    (fs : FS) (book_count : Nat := 0) (cover_count : Nat := 0) : FS × Nat × Nat :=
  match results with
  | [] => (fs, book_count, cover_count)
  | o :: rest =>
      serialize_results rest params
        (fsWrite fs (artifactName params o) (o.elems.map Prod.fst))
        (book_count + o.elems.length)
        (cover_count + (o.elems.map Prod.snd).sum)

/-- Number of successful covers in one page outcome. -/
def coverSum (o : Outcome) : Nat :=
  (o.elems.map Prod.snd).sum

/-- Page URLs that failed a batch (`res[is_ok_idx]` false). -/
def missingOf (results : List Outcome) : List Url :=
  (results.filter (fun o => !o.ok)).map (fun o => o.url)

/-- Pass 1 as `__main__` runs it: `serialize_results(results, sp)` over ALL
outcomes of the first batch, with counts starting at their defaults 0. -/
def firstPass (params : ScraperParams) (results1 : List Outcome) : FS × Nat × Nat :=
  serialize_results results1 params []

/-- Modelled from the spec: the FIRST_PASS step of section 4.4, which says
the Serializer is invoked only on `retrieved` (page-level successes), counts
initialized from zero. Stated for comparison with `firstPass`, which embeds
the code. -/
def firstPassSpec (params : ScraperParams) (results1 : List Outcome) : FS × Nat × Nat :=
  serialize_results (results1.filter (fun o => o.ok)) params []

/-- Observable state after the two-pass orchestration in `__main__`. -/
structure RunResult where
  fs : FS
  book_count : Nat
  cover_count : Nat
  finalMissing : List Url
  deriving Repr

/-- The two-pass retry orchestration of `__main__`, parameterised by the
outcomes each fetch batch returns (`results2` is the batch fetched over the
pass-1 missing URLs; it is ignored when nothing is missing, as the code
skips the second run). Pass 1 serializes all outcomes; pass 2 serializes
only the retrieved ones, accumulating onto the running counts. -/
def twoPass (params : ScraperParams) (results1 results2 : List Outcome) : RunResult :=
  let missing1 := missingOf results1
  let step1 := firstPass params results1
  if missing1.isEmpty then
    ⟨step1.1, step1.2.1, step1.2.2, []⟩
  else
    let retrieved2 := results2.filter (fun o => o.ok)
    let step2 := serialize_results retrieved2 params step1.1 step1.2.1 step1.2.2
    ⟨step2.1, step2.2.1, step2.2.2, missingOf results2⟩

/-! ## Planner -/

/-- Outcome of the reconnaissance request in `plan`. -/
inductive PlanResp where
  | connError
  | ok (total : Nat)
  deriving DecidableEq, Repr

/-- `math.ceil(total / entries)` for a positive page size (the division in
the source is exact float division; for the magnitudes involved the float
result is exact enough that its ceiling equals the integer ceiling). -/
def ceilPages (total entries : Nat) : Nat :=
  (total + entries - 1) / entries

/-- `plan(params)`: reads `content['data']['total']` and computes
`math.ceil(num_books / entries_per_page)` — where `entries_per_page` is the
MODULE-LEVEL variable of `__main__` (here `globalEntries`), not
`params.entries_per_page`. On `ClientConnectorError` the function falls
through and returns `None`. -/
def plan (globalEntries : Nat) (_params : ScraperParams) (resp : PlanResp) :
    Option (Nat × Nat) :=
  match resp with
  | .connError => none
  | .ok total => some (total, ceilPages total globalEntries)

/-! ## Merge stage (`join_data_files` in utils.py) -/

/-- Python `re.match('[0-9]\x7b1,3\x7d.json', name)`: anchored at the start only,
`.` matches any character, and there is no end anchor. `matchLen k` tries a
digit run of length `k`. -/
def matchLen (k : Nat) (cs : List Char) : Bool :=
  decide (k ≤ cs.length) && (cs.take k).all Char.isDigit &&
    "json".toList.isPrefixOf (cs.drop (k + 1)) && decide (k + 1 ≤ cs.length)

/-- Whether a file name passes the `re.match` filter of `join_data_files`. -/
def matchesPageName (name : String) : Bool :=
  matchLen 1 name.toList || matchLen 2 name.toList || matchLen 3 name.toList

/-- Python `int(...)` restricted to the strings arising here: a non-empty
all-digit string parses to its decimal value; anything else raises
ValueError (`none`). Python `int` would also accept signs and surrounding
whitespace, which cannot occur in these file names. -/
def parseDigits (cs : List Char) : Option Nat :=
  if cs ≠ [] ∧ cs.all Char.isDigit then
    some (cs.foldl (fun acc c => 10 * acc + (c.toNat - 48)) 0)
  else none

/-- Python `str.replace(pat, '')` on character lists, for a non-empty
pattern: removes every occurrence, scanning left to right. The fuel is the
string length, sufficient because every step consumes at least one
character. -/
def removeAllFuel (pat : List Char) : Nat → List Char → List Char
  | _, [] => []
  | 0, s => s
  | fuel + 1, c :: rest =>
      if pat.isPrefixOf (c :: rest) then
        removeAllFuel pat fuel ((c :: rest).drop pat.length)
      else c :: removeAllFuel pat fuel rest

/-- `fname_to_int`: `int(fname.name.replace('.json', ''))`; `none` models
the `ValueError` the `int` call raises on a non-numeric remainder. -/
def fname_to_int (name : String) : Option Nat :=
  parseDigits (removeAllFuel ".json".toList name.toList.length name.toList)

/-- Computes the sort keys of the filtered listing; `none` as soon as one
`fname_to_int` raises (Python computes every key before sorting, and any one
raising aborts `sorted`). -/
def keyedEntries {α : Type} : List (String × α) → Option (List (Nat × α))
  | [] => some []
  | e :: rest =>
      match fname_to_int e.1, keyedEntries rest with
      | some k, some tail => some ((k, e.2) :: tail)
      | _, _ => none

/-- Reads the files in order; `none` as soon as one open/`json.load` raises. -/
def readEntries {α : Type} : List (Nat × Except Unit α) → Option (List α)
  | [] => some []
  | (_, .error _) :: _ => none
  | (_, .ok v) :: rest =>
      match readEntries rest with
      | some tail => some (v :: tail)
      | none => none

/-- State of the destination file after `join_data_files` returns. Opening
with mode 'w' truncates the file before `json.dump` runs, so a failure
during the dump leaves a truncated or partially written file — the previous
content is gone. -/
inductive DestState (α : Type) where
  | intact (prior : Option (List α))
  | truncated
  | written (recs : List α)
  deriving DecidableEq, Repr

/-- `join_data_files(source_path, dest_path)`. The directory scan is a
listing of (name, read result) pairs, or an error when `iterdir` itself
raises; `dumpOk` tells whether the `json.dump` of the merged list succeeds;
`destPrior` is the destination content before the call. Every exception is
caught by the blanket `except`, producing `is_ok = False`; but the
destination is truncated the moment it is opened for writing. -/
def join_data_files {α : Type} (listing : Except Unit (List (String × Except Unit (List α))))
    (dumpOk : Bool) (destPrior : Option (List α)) : Bool × DestState α :=
  match listing with
  | .error _ => (false, .intact destPrior)
  | .ok entries =>
      let files := entries.filter (fun e => matchesPageName e.1)
      match keyedEntries files with
      | none => (false, .intact destPrior)
      | some keyed =>
          let sortedKeyed := keyed.insertionSort (fun a b => a.1 ≤ b.1)
          match readEntries sortedKeyed with
          | none => (false, .intact destPrior)
          | some contents =>
              if dumpOk then (true, .written contents.flatten)
              else (false, .truncated)

/-! ## Concurrency event model for the shared semaphore

A page coroutine is abstracted to the sequence of atomic scheduler-visible
events it performs on the shared limiter and the network: semaphore acquire
and release, request start (the HTTP request is sent) and request end (the
response has arrived). A run of a batch is an interleaving of the event
sequences of its coroutines; the semaphore makes an interleaving admissible
only while the number of held slots stays within its size. -/

/-- Atomic events of one coroutine. -/
inductive Ev where
  | acq
  | rel
  | reqStart
  | reqEnd
  deriving DecidableEq, Repr

/-- Slots held after the events of a trace prefix. -/
def heldAfter (p : List Ev) : Int :=
  (p.count .acq : Int) - (p.count .rel : Int)

/-- Requests in flight after the events of a trace prefix. -/
def inflAfter (p : List Ev) : Int :=
  (p.count .reqStart : Int) - (p.count .reqEnd : Int)

/-- Event block of one nested `retrieve_cover` call: `async with sem`
acquires, the GET is issued and awaited, the slot is released when the
block exits. -/
def coverEvents : Nat → List Ev
  | 0 => []
  | n + 1 => [.acq, .reqStart, .reqEnd, .rel] ++ coverEvents n

/-- Event sequence of one successful `retrieve_book_page` call with
`numCovers` products, read off the source: the `async with sem` block wraps
the page request AND the whole product loop, so the page slot is released
only after every nested cover fetch has completed. -/
def pageTaskEvents (numCovers : Nat) : List Ev :=
  [.acq, .reqStart, .reqEnd] ++ coverEvents numCovers ++ [.rel]

/-- Modelled from the spec: section 4.2 states a page fetch holds its slot
only around its own request ("release the limiter slot after the page
request completes; cover fetches manage their own slots independently").
Under that discipline the page slot is released before any cover event. -/
def specPageTaskEvents (numCovers : Nat) : List Ev :=
  [.acq, .reqStart, .reqEnd, .rel] ++ coverEvents numCovers

/-- Per-coroutine safety: after every prefix of its event list, the requests
a coroutine has in flight are covered by slots it holds. -/
def GoodTask (l : List Ev) : Prop :=
  ∀ p ∈ l.inits, inflAfter p ≤ heldAfter p

/-- Admissibility under a semaphore of size `K`: no trace prefix holds more
than `K` slots. -/
def SemBounded (K : Nat) (t : List Ev) : Prop :=
  ∀ p ∈ t.inits, heldAfter p ≤ (K : Int)

/-- A global trace is an interleaving of the coroutine event lists: at each
step the scheduler runs the head event of one coroutine. -/
inductive Interleaves : List (List Ev) → List Ev → Prop where
  | nil (ls : List (List Ev)) (h : ∀ l ∈ ls, l = []) : Interleaves ls []
  | cons (ls : List (List Ev)) (i : Fin ls.length) (e : Ev) (r : List Ev) (t : List Ev)
      (hget : ls.get i = e :: r) (htail : Interleaves (ls.set i r) t) :
      Interleaves ls (e :: t)

/-- Held/in-flight deltas of a single event. -/
def stepHeld (h : Int) : Ev → Int
  | .acq => h + 1
  | .rel => h - 1
  | _ => h

/-- In-flight delta of a single event. -/
def stepInfl (f : Int) : Ev → Int
  | .reqStart => f + 1
  | .reqEnd => f - 1
  | _ => f

/-- Executable per-coroutine check: scanning the event list from state
`(h, f)`, the in-flight count never exceeds the held count. -/
def checkFrom (h f : Int) : List Ev → Bool
  | [] => true
  | e :: rest =>
      decide (stepInfl f e ≤ stepHeld h e) && checkFrom (stepHeld h e) (stepInfl f e) rest

/-! ## Auxiliary definitions used by the claim statements -/

/-- Artifact name as a function of the URL alone. -/
def urlArtifact (params : ScraperParams) (u : Url) : String :=
  page_num_from_url params u ++ ".json"

/-- Concrete pass-1 batch for the C2 witness: page 1 succeeds with one
record and a successful cover, page 2 fails. -/
def c2Results1 : List Outcome :=
  [⟨[([("title", some (.atom "t1"))], 1)], ⟨1⟩, true⟩, ⟨[], ⟨2⟩, false⟩]

/-- Concrete pass-2 batch for the C2 witness: page 2 now succeeds with two
records, one cover of which succeeds. -/
def c2Results2 : List Outcome :=
  [⟨[([("title", some (.atom "t2"))], 0), ([("title", some (.atom "t3"))], 1)], ⟨2⟩, true⟩]

/-! ## Well-formedness of upstream bodies, and fetch behaviour on them -/

/-- Whether one product carries a `custom_attributes` object holding every
field the extraction subscripts (the shape on which extraction cannot
raise). -/
def productOk (prod : Product) : Bool :=
  match List.lookup "custom_attributes" prod with
  | some (.customObj ca) => custom_attr_fields.all (fun f => (ca.lookup f).isSome)
  | _ => false

/-- Whether a parsed page body has the shape `retrieve_book_page` expects. -/
def bodyOk (content : List (String × TopVal)) : Bool :=
  match content.lookup "data" with
  | some (.obj fields) =>
      match fields.lookup "products" with
      | some (.productList ps) => ps.all productOk
      | _ => false
  | _ => false

/-- Responses on which `retrieve_book_page` does not raise: a connection
error (caught) or a well-formed JSON body. -/
def respOk : PageResp → Bool
  | .connError => true
  | .ok none => false
  | .ok (some content) => bodyOk content

/-- Cover fetch success as a function of the response alone. -/
def coverOkResp : CoverResp → Bool
  | .connError => false
  | .resp status _ => status = 200

/-- Flag sequence `int(cover_status)` produced for `n` covers whose
responses start at index `i`. -/
def coverFlags (covers : Nat → CoverResp) (i : Nat) : Nat → List Nat
  | 0 => []
  | n + 1 => (if coverOkResp (covers i) then 1 else 0) :: coverFlags covers (i + 1) n

/-- A well-formed product entry used by several witnesses: its
`custom_attributes` object carries all four subscripted fields, while the
base fields authors, description, language, categories and url are absent
upstream. -/
def sampleProduct : Product :=
  [("product_id", .atom "9781000"), ("title", .atom "Book"),
   ("cover_image", .atom "https://learning/covers/9781000/"),
   ("custom_attributes", .customObj
     [("publication_date", "2020-01-01"), ("publishers", "Acme"),
      ("page_count", "100"), ("average_rating", "4.5")])]

/-- Well-formed one-product page body for witnesses. -/
def sampleContent : List (String × TopVal) :=
  [("data", .obj [("products", .productList [sampleProduct])])]

/-- Mixed batch environment for the C6 witness: page 1 fails at connection
level, page 2 returns a well-formed body with one product. -/
def envMixed : Url → PageEnv :=
  fun u =>
    if u.page = 1 then ⟨.connError, fun _ => .connError⟩
    else ⟨.ok (some sampleContent), fun _ => .resp 200 "img"⟩

/-- Cover responses for the C7 witness: the second cover (index 1) fails at
connection level, the others return HTTP 200. -/
def coversOneFail : Nat → CoverResp :=
  fun i => if i = 1 then .connError else .resp 200 "img"

/-- Three-product page body for the C7 witness. -/
def sampleContent3 : List (String × TopVal) :=
  [("data", .obj [("products", .productList [sampleProduct, sampleProduct, sampleProduct])])]

instance {β : Type} : IsTotal (Nat × β) (fun a b => a.1 ≤ b.1) :=
  ⟨fun a b => Nat.le_total a.1 b.1⟩

instance {β : Type} : IsTrans (Nat × β) (fun a b => a.1 ≤ b.1) :=
  ⟨fun _ _ _ hab hbc => Nat.le_trans hab hbc⟩

/-- Modelled from the spec: the merged output the claim describes — the
artifact record sequences concatenated in ascending numeric order of the
page identifier paired with each. -/
def specMergedOutput {α : Type} (pages : List (Nat × List α)) : List α :=
  ((pages.insertionSort (fun a b => a.1 ≤ b.1)).map Prod.snd).flatten

/-! ## Lemmas about the event model, the serializer and the fetch, and the
claim theorems -/

theorem stepHeld_eq_add (h : Int) (e : Ev) : stepHeld h e = h + stepHeld 0 e := by
  cases e <;> simp [stepHeld, Int.sub_eq_add_neg]

theorem stepInfl_eq_add (f : Int) (e : Ev) : stepInfl f e = f + stepInfl 0 e := by
  cases e <;> simp [stepInfl, Int.sub_eq_add_neg]

theorem heldAfter_cons (e : Ev) (p : List Ev) :
    heldAfter (e :: p) = stepHeld 0 e + heldAfter p := by
  cases e <;> simp [heldAfter, stepHeld, List.count_cons] <;> ring

theorem inflAfter_cons (e : Ev) (p : List Ev) :
    inflAfter (e :: p) = stepInfl 0 e + inflAfter p := by
  cases e <;> simp [inflAfter, stepInfl, List.count_cons] <;> ring

theorem checkFrom_sound : ∀ (l : List Ev) (h f : Int), checkFrom h f l = true → f ≤ h →
    ∀ p, p <+: l → f + inflAfter p ≤ h + heldAfter p := by
  intro l
  induction l with
  | nil =>
      intro h f _ hfh p hp
      have hpnil : p = [] := List.prefix_nil.mp hp
      subst hpnil
      simpa [inflAfter, heldAfter] using hfh
  | cons e rest ih =>
      intro h f hchk hfh p hp
      have hchk2 := hchk
      simp only [checkFrom, Bool.and_eq_true, decide_eq_true_eq] at hchk2
      cases p with
      | nil => simpa [inflAfter, heldAfter] using hfh
      | cons a p2 =>
          obtain ⟨hae, hp2⟩ := List.cons_prefix_cons.mp hp
          subst hae
          have hrec := ih (stepHeld h a) (stepInfl f a) hchk2.2 hchk2.1 p2 hp2
          rw [inflAfter_cons, heldAfter_cons]
          rw [stepHeld_eq_add h a, stepInfl_eq_add f a] at hrec
          omega

theorem goodTask_of_checkFrom (l : List Ev) (hchk : checkFrom 0 0 l = true) : GoodTask l := by
  intro p hp
  have := checkFrom_sound l 0 0 hchk le_rfl p ((List.mem_inits p l).mp hp)
  omega

theorem checkFrom_coverEvents (n : Nat) : checkFrom 1 0 (coverEvents n ++ [.rel]) = true := by
  induction n with
  | zero => decide
  | succ m ih =>
      simp only [coverEvents, List.append_assoc, List.cons_append, List.nil_append, checkFrom,
        stepHeld, stepInfl, Bool.and_eq_true, decide_eq_true_eq]
      norm_num
      simpa using ih

theorem goodTask_pageTaskEvents (n : Nat) : GoodTask (pageTaskEvents n) := by
  apply goodTask_of_checkFrom
  simp only [pageTaskEvents, List.append_assoc, List.cons_append, List.nil_append, checkFrom,
    stepHeld, stepInfl, Bool.and_eq_true, decide_eq_true_eq]
  norm_num
  simpa using checkFrom_coverEvents n

theorem list_set_getElem_self {α : Type} : ∀ (l : List α) (i : Nat) (h : i < l.length),
    l.set i l[i] = l
  | _ :: _, 0, _ => rfl
  | a :: l, i + 1, h => by
      simp only [List.set_cons_succ, List.getElem_cons_succ]
      rw [list_set_getElem_self l i (by simpa using h)]

theorem flatten_perm_cons (e : Ev) : ∀ (ls : List (List Ev)) (i : Nat) (hi : i < ls.length)
    (r : List Ev), ls[i] = e :: r → ls.flatten.Perm (e :: (ls.set i r).flatten)
  | a :: ls2, 0, _, r, hget => by
      subst hget
      simp
  | a :: ls2, j + 1, hi, r, hget => by
      have ih := flatten_perm_cons e ls2 j (by simpa using hi) r (by simpa using hget)
      simp only [List.flatten_cons, List.set_cons_succ]
      exact (ih.append_left a).trans List.perm_middle

theorem interleaves_perm_flatten {ls : List (List Ev)} {t : List Ev} (hI : Interleaves ls t) :
    t.Perm ls.flatten := by
  induction hI with
  | nil ls h =>
      rw [List.flatten_eq_nil_iff.mpr h]
  | cons ls i e r t hget htail ih =>
      have hperm := flatten_perm_cons e ls i.val i.isLt r (by simpa using hget)
      exact (ih.cons e).trans hperm.symm

theorem interleaves_count {ls : List (List Ev)} {t : List Ev} (hI : Interleaves ls t) (x : Ev) :
    t.count x = (ls.map (List.count x)).sum := by
  rw [(interleaves_perm_flatten hI).count_eq x]
  exact List.count_flatten x ls

theorem interleaves_all_nil : ∀ (ls : List (List Ev)),
    Interleaves (ls.map (fun _ => ([] : List Ev))) [] := by
  intro ls
  refine Interleaves.nil _ ?_
  intro l hl
  obtain ⟨x, _, h⟩ := List.mem_map.mp hl
  simpa using h.symm

/-- A prefix of an interleaving is an interleaving of prefixes of the
coroutine event lists. -/
theorem interleaves_take_prefix {ls : List (List Ev)} {t : List Ev} (hI : Interleaves ls t) :
    ∀ p, p <+: t → ∃ qs : List (List Ev), qs.length = ls.length ∧
      (∀ (j : Nat) (hj : j < qs.length) (hj2 : j < ls.length), qs[j] <+: ls[j]) ∧
      Interleaves qs p := by
  induction hI with
  | nil ls h =>
      intro p hp
      have hpnil : p = [] := List.prefix_nil.mp hp
      subst hpnil
      refine ⟨ls.map (fun _ => []), by simp, ?_, interleaves_all_nil ls⟩
      intro j hj hj2
      simp
  | cons ls i e r t hget htail ih =>
      intro p hp
      cases p with
      | nil =>
          refine ⟨ls.map (fun _ => []), by simp, ?_, interleaves_all_nil ls⟩
          intro j hj hj2
          simp
      | cons a p2 =>
          obtain ⟨hae, hp2⟩ := List.cons_prefix_cons.mp hp
          subst hae
          obtain ⟨qs0, hlen0, hpt0, hI0⟩ := ih p2 hp2
          have hilen : i.val < qs0.length := by
            rw [hlen0, List.length_set]
            exact i.isLt
          have hilen2 : i.val < ls.length := i.isLt
          refine ⟨qs0.set i.val (a :: qs0[i.val]), by simpa using hlen0, ?_, ?_⟩
          · intro j hj hj2
            by_cases hji : j = i.val
            · have h1 : (qs0.set i.val (a :: qs0[i.val]))[j] = a :: qs0[i.val] := by
                subst hji
                exact List.getElem_set_self (by simpa using hj)
              rw [h1]
              have hgj : ls[j] = a :: r := by
                subst hji
                simpa [List.get_eq_getElem] using hget
              rw [hgj]
              apply List.cons_prefix_cons.mpr
              refine ⟨rfl, ?_⟩
              have h2 := hpt0 i.val hilen (by rw [List.length_set]; exact hilen2)
              have h3 : (ls.set i.val r)[i.val] = r :=
                List.getElem_set_self (by simp [hilen2])
              rw [h3] at h2
              exact h2
            · have hjq : j < qs0.length := by
                rw [List.length_set] at hj
                exact hj
              have h1 : (qs0.set i.val (a :: qs0[i.val]))[j] = qs0[j] :=
                List.getElem_set_ne (fun hh => hji hh.symm) (by simpa using hjq)
              rw [h1]
              have h2 := hpt0 j hjq (by rw [List.length_set]; exact hj2)
              have h3 : (ls.set i.val r)[j] = ls[j] :=
                List.getElem_set_ne (fun hh => hji hh.symm) (by rw [List.length_set]; exact hj2)
              rw [h3] at h2
              exact h2
          · refine Interleaves.cons _ ⟨i.val, by simpa [List.length_set] using hilen⟩ a qs0[i.val] p2 ?_ ?_
            · simp [List.get_eq_getElem]
            · have hset : (qs0.set i.val (a :: qs0[i.val])).set i.val qs0[i.val] = qs0 := by
                rw [List.set_set]
                exact list_set_getElem_self qs0 i.val hilen
              simpa [hset] using hI0

theorem sum_map_add_nat {α : Type} (l : List α) (f g : α → Nat) :
    (l.map (fun a => f a + g a)).sum = (l.map f).sum + (l.map g).sum := by
  induction l with
  | nil => simp
  | cons a l ih => simp [ih]; omega

/-- In-flight requests of any admissible interleaving of page-fetch
coroutines stay within the semaphore budget: each held slot is held by one
coroutine, and each coroutine keeps its in-flight requests below its held
slots at every point of its own event list. -/
theorem interleaves_inflight_le {ls : List (List Ev)} {t : List Ev}
    (hgoods : ∀ l ∈ ls, GoodTask l) (hI : Interleaves ls t) {K : Nat}
    (hsem : SemBounded K t) : ∀ p ∈ t.inits, inflAfter p ≤ (K : Int) := by
  intro p hp
  have hpre : p <+: t := (List.mem_inits p t).mp hp
  obtain ⟨qs, hlen, hpt, hIq⟩ := interleaves_take_prefix hI p hpre
  have hcount : ∀ x, p.count x = (qs.map (List.count x)).sum := interleaves_count hIq
  have hgood : ∀ q ∈ qs,
      q.count Ev.reqStart + q.count Ev.rel ≤ q.count Ev.acq + q.count Ev.reqEnd := by
    intro q hq
    obtain ⟨j, hj, hjq⟩ := List.getElem_of_mem hq
    have hj2 : j < ls.length := hlen ▸ hj
    have hqp : q <+: ls[j] := hjq ▸ hpt j hj hj2
    have hG : GoodTask ls[j] := hgoods ls[j] (List.getElem_mem hj2)
    have := hG q ((List.mem_inits q ls[j]).mpr hqp)
    simp only [inflAfter, heldAfter] at this
    omega
  have hsum := List.sum_le_sum hgood
  rw [sum_map_add_nat, sum_map_add_nat] at hsum
  have hK := hsem p hp
  simp only [inflAfter, heldAfter] at hK ⊢
  rw [hcount Ev.reqStart, hcount Ev.reqEnd]
  rw [hcount Ev.acq, hcount Ev.rel] at hK
  omega

theorem interleaves_single : ∀ l : List Ev, Interleaves [l] l
  | [] => Interleaves.nil _ (by intro x hx; simpa using hx)
  | e :: r =>
      Interleaves.cons [e :: r] ⟨0, by simp⟩ e r r rfl
        (by simpa using interleaves_single r)

theorem artifactName_eq (params : ScraperParams) (o : Outcome) :
    artifactName params o = urlArtifact params o.url := rfl

theorem ser_book (results : List Outcome) (params : ScraperParams) (fs : FS) (b c : Nat) :
    (serialize_results results params fs b c).2.1
      = b + (results.map (fun o => o.elems.length)).sum := by
  induction results generalizing fs b c with
  | nil => simp [serialize_results]
  | cons o rest ih =>
      simp only [serialize_results, ih, List.map_cons, List.sum_cons]
      omega

theorem ser_cover (results : List Outcome) (params : ScraperParams) (fs : FS) (b c : Nat) :
    (serialize_results results params fs b c).2.2
      = c + (results.map coverSum).sum := by
  induction results generalizing fs b c with
  | nil => simp [serialize_results]
  | cons o rest ih =>
      simp only [serialize_results, ih, List.map_cons, List.sum_cons, coverSum]
      omega

theorem fsWrite_fresh (fs : FS) (n : String) (c : List Record)
    (h : ∀ e ∈ fs, e.1 ≠ n) : fsWrite fs n c = fs ++ [(n, c)] := by
  unfold fsWrite
  rw [List.filter_eq_self.mpr]
  intro e he
  simpa using h e he

theorem ser_fs (results : List Outcome) (params : ScraperParams) (fs : FS) (b c : Nat)
    (hd : ∀ o ∈ results, ∀ e ∈ fs, e.1 ≠ artifactName params o)
    (hnd : (results.map (artifactName params)).Nodup) :
    (serialize_results results params fs b c).1
      = fs ++ results.map (fun o => (artifactName params o, o.elems.map Prod.fst)) := by
  induction results generalizing fs b c with
  | nil => simp [serialize_results]
  | cons o rest ih =>
      simp only [List.map_cons, List.nodup_cons, List.mem_map] at hnd
      have hw : fsWrite fs (artifactName params o) (o.elems.map Prod.fst)
          = fs ++ [(artifactName params o, o.elems.map Prod.fst)] :=
        fsWrite_fresh _ _ _ (hd o (by simp))
      simp only [serialize_results, hw]
      rw [ih _ _ _ ?_ hnd.2]
      · simp
      · intro o2 ho2 e he
        rcases List.mem_append.mp he with hfs | hsing
        · exact hd o2 (by simp [ho2]) e hfs
        · have he1 : e.1 = artifactName params o := by
            simp only [List.mem_singleton] at hsing
            rw [hsing]
          rw [he1]
          intro hcontra
          exact hnd.1 ⟨o2, ho2, hcontra.symm⟩

theorem booksUnder_cons (k : String) (v : List Record) (fs : FS) (n : String) :
    booksUnder ((k, v) :: fs) n
      = (if k = n then v.length else 0) + booksUnder fs n := by
  by_cases h : k = n <;> simp [booksUnder, List.filter_cons, h]

theorem booksUnder_zero_of_not_mem (fs : FS) (n : String) (h : n ∉ fs.map Prod.fst) :
    booksUnder fs n = 0 := by
  induction fs with
  | nil => simp [booksUnder]
  | cons e rest ih =>
      simp only [List.map_cons, List.mem_cons] at h
      push_neg at h
      rcases e with ⟨k, v⟩
      rw [booksUnder_cons]
      rw [ih h.2]
      simp only [add_zero, ite_eq_right_iff]
      intro hk
      exact absurd hk.symm h.1

theorem booksUnder_append (fs gs : FS) (n : String) :
    booksUnder (fs ++ gs) n = booksUnder fs n + booksUnder gs n := by
  simp [booksUnder, List.filter_append]

theorem totalBooks_cons (k : String) (v : List Record) (fs : FS) :
    totalBooks ((k, v) :: fs) = v.length + totalBooks fs := by
  simp [totalBooks]

theorem totalBooks_split (fs : FS) (n : String) :
    totalBooks fs = booksUnder fs n + totalBooks (fs.filter (fun e => e.1 ≠ n)) := by
  induction fs with
  | nil => simp [totalBooks, booksUnder]
  | cons e rest ih =>
      rcases e with ⟨k, v⟩
      rw [totalBooks_cons, booksUnder_cons]
      by_cases h : k = n
      · have hf : (((k, v) :: rest).filter (fun e => e.1 ≠ n)) = rest.filter (fun e => e.1 ≠ n) := by
          simp [List.filter_cons, h]
        rw [hf, if_pos h, ih]
        omega
      · have hf : (((k, v) :: rest).filter (fun e => e.1 ≠ n))
            = (k, v) :: rest.filter (fun e => e.1 ≠ n) := by
          simp [List.filter_cons, h]
        rw [hf, if_neg h, totalBooks_cons, ih]
        omega

theorem totalBooks_append (fs gs : FS) :
    totalBooks (fs ++ gs) = totalBooks fs + totalBooks gs := by
  simp [totalBooks]

theorem totalBooks_fsWrite (fs : FS) (n : String) (c : List Record) :
    totalBooks (fsWrite fs n c) + booksUnder fs n = totalBooks fs + c.length := by
  unfold fsWrite
  rw [totalBooks_append]
  have h1 : totalBooks [(n, c)] = c.length := by simp [totalBooks]
  rw [h1]
  have h2 := totalBooks_split fs n
  omega

theorem booksUnder_filter_ne (fs : FS) (n m : String) (h : m ≠ n) :
    booksUnder (fs.filter (fun e => e.1 ≠ n)) m = booksUnder fs m := by
  induction fs with
  | nil => simp [booksUnder]
  | cons e rest ih =>
      rcases e with ⟨k, v⟩
      by_cases hk : k = n
      · have hf : (((k, v) :: rest).filter (fun e => e.1 ≠ n)) = rest.filter (fun e => e.1 ≠ n) := by
          simp [List.filter_cons, hk]
        rw [hf, ih, booksUnder_cons]
        have hkm : ¬ k = m := by rw [hk]; exact fun hh => h hh.symm
        simp [hkm]
      · have hf : (((k, v) :: rest).filter (fun e => e.1 ≠ n))
            = (k, v) :: rest.filter (fun e => e.1 ≠ n) := by
          simp [List.filter_cons, hk]
        rw [hf, booksUnder_cons, booksUnder_cons, ih]

theorem booksUnder_fsWrite_ne (fs : FS) (n : String) (c : List Record) (m : String)
    (h : m ≠ n) : booksUnder (fsWrite fs n c) m = booksUnder fs m := by
  unfold fsWrite
  rw [booksUnder_append, booksUnder_filter_ne fs n m h, booksUnder_cons]
  have hnm : ¬ n = m := fun hh => h hh.symm
  simp [booksUnder, hnm]

theorem ser_totalBooks (results : List Outcome) (params : ScraperParams) (fs : FS) (b c : Nat)
    (h0 : ∀ o ∈ results, booksUnder fs (artifactName params o) = 0)
    (hnd : (results.map (artifactName params)).Nodup) :
    totalBooks (serialize_results results params fs b c).1
      = totalBooks fs + (results.map (fun o => o.elems.length)).sum := by
  induction results generalizing fs b c with
  | nil => simp [serialize_results]
  | cons o rest ih =>
      simp only [List.map_cons, List.nodup_cons, List.mem_map] at hnd
      simp only [serialize_results]
      have hwrite := totalBooks_fsWrite fs (artifactName params o) (o.elems.map Prod.fst)
      rw [h0 o (by simp)] at hwrite
      rw [ih _ _ _ ?_ hnd.2]
      · simp only [List.map_cons, List.sum_cons, List.length_map] at *
        omega
      · intro o2 ho2
        rw [booksUnder_fsWrite_ne fs _ _ _ ?_]
        · exact h0 o2 (by simp [ho2])
        · intro hcontra
          exact hnd.1 ⟨o2, ho2, hcontra⟩

theorem sum_map_filter_split {α : Type} (l : List α) (p : α → Bool) (f : α → Nat) :
    (l.map f).sum = ((l.filter p).map f).sum + ((l.filter (fun a => !p a)).map f).sum := by
  induction l with
  | nil => simp
  | cons a l ih =>
      by_cases h : p a <;> simp [List.filter_cons, h, ih] <;> omega

theorem booksUnder_pass1 (params : ScraperParams) (results : List Outcome) (n : String)
    (o1 : Outcome) (hn : artifactName params o1 = n) :
    (results.map (artifactName params)).Nodup → o1 ∈ results →
    booksUnder (results.map (fun o => (artifactName params o, o.elems.map Prod.fst))) n
      = o1.elems.length := by
  induction results with
  | nil => intro _ ho1; cases ho1
  | cons o rest ih =>
      intro hnd ho1
      simp only [List.map_cons, List.nodup_cons, List.mem_map] at hnd
      rw [List.map_cons, booksUnder_cons]
      rcases List.mem_cons.mp ho1 with rfl | hmem
      · rw [if_pos hn, booksUnder_zero_of_not_mem]
        · simp
        · rw [List.map_map]
          intro hcontra
          obtain ⟨o2, ho2, h2⟩ := List.mem_map.mp hcontra
          have h3 : artifactName params o2 = n := by simpa using h2
          exact hnd.1 ⟨o2, ho2, h3.trans hn.symm⟩
      · have hne : ¬ (artifactName params o = n) := by
          intro hcontra
          exact hnd.1 ⟨o1, hmem, hn.trans hcontra.symm⟩
        rw [if_neg hne, ih hnd.2 hmem]
        omega

theorem twoPass_of_empty (params : ScraperParams) (results1 results2 : List Outcome)
    (h : missingOf results1 = []) :
    twoPass params results1 results2
      = ⟨(firstPass params results1).1, (firstPass params results1).2.1,
         (firstPass params results1).2.2, []⟩ := by
  simp [twoPass, h]

theorem twoPass_of_nonempty (params : ScraperParams) (results1 results2 : List Outcome)
    (h : missingOf results1 ≠ []) :
    twoPass params results1 results2
      = ⟨(serialize_results (results2.filter (fun o => o.ok)) params
            (firstPass params results1).1 (firstPass params results1).2.1
            (firstPass params results1).2.2).1,
         (serialize_results (results2.filter (fun o => o.ok)) params
            (firstPass params results1).1 (firstPass params results1).2.1
            (firstPass params results1).2.2).2.1,
         (serialize_results (results2.filter (fun o => o.ok)) params
            (firstPass params results1).1 (firstPass params results1).2.1
            (firstPass params results1).2.2).2.2,
         missingOf results2⟩ := by
  have hne : ¬ (missingOf results1).isEmpty = true := by
    simpa [List.isEmpty_iff] using h
  simp [twoPass, hne]

/-- C2: after both passes, `book_count` equals the total number of records
across all written page artifacts; pages that failed both passes contribute
no records (their artifact is empty); and no page serialized in both passes
is counted twice — the cover count likewise is the sum, over pages, of the
cover successes of the single successful outcome serialized for that page.
Hypotheses: pass-1 pages are distinct, pass 2 fetches exactly the pass-1
missing URLs (as the code does), and a failed fetch carries no records (as
`retrieve_book_page` guarantees). -/
theorem C2_counts_consistent (params : ScraperParams) (results1 results2 : List Outcome)
    (hnd : (results1.map (artifactName params)).Nodup)
    (h2 : results2.map (fun o => o.url) = missingOf results1)
    (hfail : ∀ o ∈ results1 ++ results2, o.ok = false → o.elems = []) :
    (twoPass params results1 results2).book_count
        = totalBooks (twoPass params results1 results2).fs ∧
    (twoPass params results1 results2).cover_count
        = ((results1.filter (fun o => o.ok)).map coverSum).sum
          + ((results2.filter (fun o => o.ok)).map coverSum).sum := by
  have hfail1 : ∀ o ∈ results1, o.ok = false → o.elems = [] := by
    intro o ho
    exact hfail o (List.mem_append.mpr (Or.inl ho))
  have hb1 : (firstPass params results1).2.1
      = (results1.map (fun o => o.elems.length)).sum := by
    simpa using ser_book results1 params [] 0 0
  have hc1 : (firstPass params results1).2.2 = (results1.map coverSum).sum := by
    simpa using ser_cover results1 params [] 0 0
  have htot1 : totalBooks (firstPass params results1).1
      = (results1.map (fun o => o.elems.length)).sum := by
    have := ser_totalBooks results1 params [] 0 0 (by intro o _; simp [booksUnder]) hnd
    simpa [totalBooks] using this
  have hcov1 : (results1.map coverSum).sum
      = ((results1.filter (fun o => o.ok)).map coverSum).sum := by
    rw [sum_map_filter_split results1 (fun o => o.ok) coverSum]
    have hz : ((results1.filter (fun o => !o.ok)).map coverSum).sum = 0 := by
      apply List.sum_eq_zero
      intro x hx
      obtain ⟨o, ho, rfl⟩ := List.mem_map.mp hx
      have hok : o.ok = false := by simpa using List.of_mem_filter ho
      rw [coverSum, hfail1 o (List.mem_of_mem_filter ho) hok]
      simp
    omega
  by_cases hempty : missingOf results1 = []
  · have hr2 : results2 = [] := by
      have := h2
      rw [hempty] at this
      exact List.map_eq_nil_iff.mp this
    rw [twoPass_of_empty params results1 results2 hempty]
    subst hr2
    constructor
    · rw [hb1, htot1]
    · rw [hc1, hcov1]
      simp
  · rw [twoPass_of_nonempty params results1 results2 hempty]
    have hfs1 : (firstPass params results1).1
        = results1.map (fun o => (artifactName params o, o.elems.map Prod.fst)) := by
      have := ser_fs results1 params [] 0 0 (by intro o _ e he; cases he) hnd
      simpa using this
    have hnd2 : (results2.map (artifactName params)).Nodup := by
      have heq : results2.map (artifactName params)
          = (results1.filter (fun o => !o.ok)).map (artifactName params) := by
        have e1 : results2.map (artifactName params)
            = (results2.map (fun o => o.url)).map (urlArtifact params) := by
          rw [List.map_map]
          rfl
        rw [e1, h2]
        unfold missingOf
        rw [List.map_map]
        rfl
      rw [heq]
      exact List.Nodup.sublist (List.Sublist.map _ (List.filter_sublist results1)) hnd
    have hnd2r : ((results2.filter (fun o => o.ok)).map (artifactName params)).Nodup :=
      List.Nodup.sublist (List.Sublist.map _ (List.filter_sublist results2)) hnd2
    have h0 : ∀ o ∈ results2.filter (fun o => o.ok),
        booksUnder (firstPass params results1).1 (artifactName params o) = 0 := by
      intro o ho
      have hourl : o.url ∈ missingOf results1 := by
        rw [← h2]
        exact List.mem_map.mpr ⟨o, List.mem_of_mem_filter ho, rfl⟩
      obtain ⟨o1, ho1f, hurl⟩ := List.mem_map.mp hourl
      have ho1 : o1 ∈ results1 := List.mem_of_mem_filter ho1f
      have ho1ok : o1.ok = false := by simpa using List.of_mem_filter ho1f
      have ho1e : o1.elems = [] := hfail1 o1 ho1 ho1ok
      have hnameeq : artifactName params o1 = artifactName params o := by
        rw [artifactName_eq, artifactName_eq, hurl]
      rw [hfs1, booksUnder_pass1 params results1 _ o1 hnameeq hnd ho1, ho1e]
      rfl
    have htot2 := ser_totalBooks (results2.filter (fun o => o.ok)) params
      (firstPass params results1).1 (firstPass params results1).2.1
      (firstPass params results1).2.2 h0 hnd2r
    have hb2 := ser_book (results2.filter (fun o => o.ok)) params
      (firstPass params results1).1 (firstPass params results1).2.1
      (firstPass params results1).2.2
    have hc2 := ser_cover (results2.filter (fun o => o.ok)) params
      (firstPass params results1).1 (firstPass params results1).2.1
      (firstPass params results1).2.2
    constructor
    · rw [hb2, htot2, hb1, htot1]
    · rw [hc2, hc1, hcov1]

/-- Witness for C2 at a concrete two-pass run. -/
theorem C2_counts_consistent_witness :
    (twoPass ⟨"2018-01-01", "2023-12-31", 50, "500w"⟩ c2Results1 c2Results2).book_count
        = totalBooks (twoPass ⟨"2018-01-01", "2023-12-31", 50, "500w"⟩ c2Results1 c2Results2).fs ∧
    (twoPass ⟨"2018-01-01", "2023-12-31", 50, "500w"⟩ c2Results1 c2Results2).cover_count
        = ((c2Results1.filter (fun o => o.ok)).map coverSum).sum
          + ((c2Results2.filter (fun o => o.ok)).map coverSum).sum :=
  C2_counts_consistent ⟨"2018-01-01", "2023-12-31", 50, "500w"⟩ c2Results1 c2Results2
    (by decide) (by decide) (by decide)

/-- C3 counterexample: with one page that fails its fetch, the pass-1 code
(`serialize_results(results, sp)` over ALL outcomes) writes an artifact
`5.json` for the failed page, whereas serializing only the retrieved pages
(what the claim states, embedded as `firstPassSpec`) writes nothing — so the
Serializer is NOT invoked only on the retrieved pages in the first pass. -/
theorem C3_counterexample :
    (firstPass ⟨"2018-01-01", "2023-12-31", 50, "500w"⟩ [⟨[], ⟨5⟩, false⟩]).1
        = [("5.json", [])] ∧
    (firstPassSpec ⟨"2018-01-01", "2023-12-31", 50, "500w"⟩ [⟨[], ⟨5⟩, false⟩]).1
        = [] ∧
    (firstPass ⟨"2018-01-01", "2023-12-31", 50, "500w"⟩ [⟨[], ⟨5⟩, false⟩]).1
        ≠ (firstPassSpec ⟨"2018-01-01", "2023-12-31", 50, "500w"⟩ [⟨[], ⟨5⟩, false⟩]).1 := by
  refine ⟨rfl, rfl, ?_⟩
  decide

/-- C3 (amended): in the first pass the Serializer is invoked on ALL fetch
results — pages whose fetch failed included, each yielding an artifact
holding its (empty) record list — with both counts initialized from zero,
so `book_count` after pass 1 sums the record counts of every outcome. -/
theorem C3_firstPass_serializes_all (params : ScraperParams) (results1 : List Outcome)
    (hnd : (results1.map (artifactName params)).Nodup) :
    (firstPass params results1).1
        = results1.map (fun o => (artifactName params o, o.elems.map Prod.fst)) ∧
    (firstPass params results1).2.1 = (results1.map (fun o => o.elems.length)).sum := by
  constructor
  · have := ser_fs results1 params [] 0 0 (by intro o _ e he; cases he) hnd
    simpa using this
  · simpa using ser_book results1 params [] 0 0

/-- Witness for the amended C3 at a concrete batch containing a failed page. -/
theorem C3_firstPass_serializes_all_witness :
    (firstPass ⟨"2018-01-01", "2023-12-31", 50, "500w"⟩ c2Results1).1
        = c2Results1.map (fun o =>
            (artifactName ⟨"2018-01-01", "2023-12-31", 50, "500w"⟩ o, o.elems.map Prod.fst)) ∧
    (firstPass ⟨"2018-01-01", "2023-12-31", 50, "500w"⟩ c2Results1).2.1
        = (c2Results1.map (fun o => o.elems.length)).sum :=
  C3_firstPass_serializes_all ⟨"2018-01-01", "2023-12-31", 50, "500w"⟩ c2Results1 (by decide)

/-- C1 counterexample: the code does NOT release the page slot after its own
HTTP request — after the fifth event of a one-cover page task (page acquire,
page request, page response, cover acquire, cover request) the task holds
TWO limiter slots, while under the discipline the claim states
(`specPageTaskEvents`, slot held only around the page request) a single
task never holds more than one slot at any point. -/
theorem C1_counterexample :
    heldAfter ((pageTaskEvents 1).take 5) = 2 ∧
    (specPageTaskEvents 1).inits.all (fun p => decide (heldAfter p ≤ 1)) = true := by
  decide

/-- C1 (amended): each page fetch holds its limiter slot for the whole page
handling — its own HTTP request and all nested cover fetches, each of which
additionally acquires and releases the same shared limiter. The global bound
still holds: in every interleaving of page-fetch coroutines admitted by a
semaphore of size K, at no instant are more than K requests (page and cover
combined) in flight. -/
theorem C1_limiter_bound (K : Nat) (ls : List (List Ev)) (t : List Ev)
    (htasks : ∀ l ∈ ls, ∃ n, l = pageTaskEvents n)
    (hI : Interleaves ls t) (hsem : SemBounded K t) :
    ∀ p ∈ t.inits, inflAfter p ≤ (K : Int) := by
  apply interleaves_inflight_le ?_ hI hsem
  intro l hl
  obtain ⟨n, rfl⟩ := htasks l hl
  exact goodTask_pageTaskEvents n

/-- Witness for the amended C1: a one-page batch with one cover, run under a
semaphore of size 2, checked at the prefix where both the page slot and a
cover request are active. -/
theorem C1_limiter_bound_witness :
    inflAfter ((pageTaskEvents 1).take 5) ≤ ((2 : Nat) : Int) :=
  C1_limiter_bound 2 [pageTaskEvents 1] (pageTaskEvents 1)
    (fun l hl => ⟨1, List.mem_singleton.mp hl⟩)
    (interleaves_single (pageTaskEvents 1))
    (by unfold SemBounded; decide)
    ((pageTaskEvents 1).take 5) (by decide)

/-- C5: the planner pairs the reported total with a page count, but the page
size it divides by is the module-level `entries_per_page` of `__main__` (50
in the run), not `params.entries_per_page`: the result is independent of the
parameter — with total 5522 it is 111 pages for EVERY parameter value,
whereas the claimed contract would give ceil(5522/100) = 56 when the
parameter is 100. The concrete scenario total=5522, page size 50 → 111 holds
because the outer-scope variable and the parameter coincide in `__main__`. -/
theorem C5_plan_uses_outer_scope (pe : Nat) :
    plan 50 ⟨"2018-01-01", "2023-12-31", pe, "500w"⟩ (.ok 5522) = some (5522, 111) ∧
    ceilPages 5522 100 = 56 :=
  ⟨rfl, rfl⟩

theorem retrieve_cover_fst (url : String) (resp : CoverResp) :
    (retrieve_cover url resp).1 = coverOkResp resp := by
  cases resp with
  | connError => rfl
  | resp status bytes => by_cases h : status = 200 <;> simp [retrieve_cover, coverOkResp, h]

theorem getCustomAttr_ok_of_productOk (prod : Product) (h : productOk prod = true)
    (f : String) (hf : f ∈ custom_attr_fields) : ∃ v, getCustomAttr prod f = .ok v := by
  unfold productOk at h
  cases hca : List.lookup "custom_attributes" prod with
  | none => simp [hca] at h
  | some v =>
      cases v with
      | atom s => simp [hca] at h
      | customObj ca =>
          rw [hca] at h
          have hall : custom_attr_fields.all (fun g => (ca.lookup g).isSome) = true := by
            simpa using h
          have hsome := List.all_eq_true.mp hall f hf
          cases hl : ca.lookup f with
          | none => simp [hl] at hsome
          | some w => exact ⟨.atom w, by simp [getCustomAttr, hca, hl]⟩

theorem addCustomAttrs_ok (prod : Product) :
    ∀ (fs : List String) (data : Record),
    (∀ f ∈ fs, ∃ v, getCustomAttr prod f = .ok v) →
    ∃ rec, addCustomAttrs prod fs data = .ok rec
  | [], data, _ => ⟨data, rfl⟩
  | f :: rest, data, h => by
      obtain ⟨v, hv⟩ := h f (by simp)
      simp only [addCustomAttrs, hv]
      exact addCustomAttrs_ok prod rest _ (fun g hg => h g (by simp [hg]))

theorem extract_record_ok (prod : Product) (h : productOk prod = true) :
    ∃ rec, extract_record prod = .ok rec := by
  unfold extract_record
  exact addCustomAttrs_ok prod custom_attr_fields _
    (fun f hf => getCustomAttr_ok_of_productOk prod h f hf)

theorem processProducts_ok (params : ScraperParams) (covers : Nat → CoverResp) :
    ∀ (ps : List Product) (i : Nat), (∀ prod ∈ ps, productOk prod = true) →
    ∃ elems, processProducts params covers i ps = .ok elems ∧
      elems.length = ps.length ∧ elems.map Prod.snd = coverFlags covers i ps.length := by
  intro ps
  induction ps with
  | nil => intro i _; exact ⟨[], rfl, rfl, rfl⟩
  | cons prod rest ih =>
      intro i hall
      obtain ⟨rec, hrec⟩ := extract_record_ok prod (hall prod (by simp))
      obtain ⟨tail, htail, hlen, hflags⟩ := ih (i + 1) (fun p hp => hall p (by simp [hp]))
      refine ⟨(rec, if (retrieve_cover
          (build_cover_img_url params ((List.lookup "cover_image" rec).join)) (covers i)).1
            then 1 else 0) :: tail, ?_, ?_, ?_⟩
      · simp only [processProducts, hrec, htail]
      · simp [hlen]
      · simp only [List.map_cons, hflags, coverFlags, List.length_cons]
        rw [retrieve_cover_fst]

theorem getProducts_of_bodyOk (content : List (String × TopVal)) (h : bodyOk content = true) :
    ∃ ps, getProducts content = .ok ps ∧ ∀ prod ∈ ps, productOk prod = true := by
  unfold bodyOk at h
  cases hd : content.lookup "data" with
  | none => simp [hd] at h
  | some v =>
      cases v with
      | atom s => simp [hd] at h
      | obj fields =>
          rw [hd] at h
          cases hp : fields.lookup "products" with
          | none => simp [hp] at h
          | some w =>
              cases w with
              | atom s => simp [hp] at h
              | productList ps =>
                  refine ⟨ps, by simp [getProducts, hd, hp], ?_⟩
                  intro prod hprod
                  have hall : ps.all productOk = true := by simpa [hp] using h
                  exact List.all_eq_true.mp hall prod hprod

theorem retrieve_book_page_respOk (url : Url) (resp : PageResp) (params : ScraperParams)
    (covers : Nat → CoverResp) (h : respOk resp = true) :
    ∃ o, retrieve_book_page url resp params covers = .ok o ∧ o.url = url := by
  cases resp with
  | connError => exact ⟨⟨[], url, false⟩, rfl, rfl⟩
  | ok body =>
      cases body with
      | none => cases h
      | some content =>
          obtain ⟨ps, hps, hall⟩ := getProducts_of_bodyOk content (by simpa [respOk] using h)
          obtain ⟨elems, helems, _, _⟩ := processProducts_ok params covers ps 0 hall
          refine ⟨⟨elems, url, true⟩, ?_, rfl⟩
          simp only [retrieve_book_page, hps, helems]

/-- C6 counterexample: a page whose response parses to JSON but lacks the
expected `data` key makes `retrieve_book_page` raise a KeyError, which the
batch gather propagates — the Fetcher raises for an individual page failure
instead of returning an outcome for every page. -/
theorem C6_counterexample :
    fetch_batch ⟨"2018-01-01", "2023-12-31", 50, "500w"⟩
      (fun _ => ⟨.ok (some []), fun _ => .connError⟩) [⟨1⟩]
      = .error .keyError := rfl

/-- C6 (amended): the Fetcher returns one outcome per page, in order, as
long as every page response is a connection-level failure (caught and turned
into a status flag) or a well-formed body; failures while interpreting the
body — non-JSON content, missing `data`/`products` keys, missing custom
attributes — are not caught and propagate to the caller, failing the batch. -/
theorem C6_fetch_batch_ok (params : ScraperParams) (env : Url → PageEnv) (urls : List Url)
    (h : ∀ u ∈ urls, respOk (env u).resp = true) :
    (fetch_batch params env urls).map (fun outs => outs.map (fun o => o.url)) = .ok urls := by
  induction urls with
  | nil => rfl
  | cons u rest ih =>
      obtain ⟨o, ho, hourl⟩ :=
        retrieve_book_page_respOk u (env u).resp params (env u).covers (h u (by simp))
      have hrest := ih (fun v hv => h v (by simp [hv]))
      cases hfb : fetch_batch params env rest with
      | error e => rw [hfb] at hrest; cases hrest
      | ok os =>
          rw [hfb] at hrest
          simp only [Except.map] at hrest
          simp only [fetch_batch, ho, hfb, Except.map, List.map_cons, hourl]
          injection hrest with hrest2
          rw [hrest2]

/-- Witness for the amended C6 on a two-page batch with one connection
failure and one well-formed page. -/
theorem C6_fetch_batch_ok_witness :
    (fetch_batch ⟨"2018-01-01", "2023-12-31", 50, "500w"⟩ envMixed [⟨1⟩, ⟨2⟩]).map
        (fun outs => outs.map (fun o => o.url)) = .ok [⟨1⟩, ⟨2⟩] :=
  C6_fetch_batch_ok ⟨"2018-01-01", "2023-12-31", 50, "500w"⟩ envMixed [⟨1⟩, ⟨2⟩]
    (by decide)

/-- C7: a connection-level failure of the page request itself is caught and
marks the page failed with an empty record list; a connection-level failure
of a nested cover fetch only zeroes that one cover flag — the containing
page outcome is still successful, with one flag per product given pointwise
by the cover responses (0 exactly where a cover fails). -/
theorem C7_failure_granularity (url : Url) (params : ScraperParams)
    (covers : Nat → CoverResp) :
    retrieve_book_page url .connError params covers = .ok ⟨[], url, false⟩ ∧
    (∀ content ps, getProducts content = .ok ps →
      (∀ prod ∈ ps, productOk prod = true) →
      (retrieve_book_page url (.ok (some content)) params covers).map
          (fun o => (o.url, o.ok, o.elems.map Prod.snd))
        = .ok (url, true, coverFlags covers 0 ps.length)) := by
  constructor
  · rfl
  · intro content ps hps hall
    obtain ⟨elems, helems, _, hflags⟩ := processProducts_ok params covers ps 0 hall
    simp only [retrieve_book_page, hps, helems, Except.map, hflags]

/-- Witness for C7: the page-failure shape at a concrete URL, and the
three-product page of the spec scenario where cover 2 fails — the page is
still successful and the flags are [1, 0, 1]. -/
theorem C7_failure_granularity_witness :
    retrieve_book_page ⟨3⟩ .connError ⟨"2018-01-01", "2023-12-31", 50, "500w"⟩ coversOneFail
        = .ok ⟨[], ⟨3⟩, false⟩ ∧
    (retrieve_book_page ⟨3⟩ (.ok (some sampleContent3))
        ⟨"2018-01-01", "2023-12-31", 50, "500w"⟩ coversOneFail).map
        (fun o => (o.url, o.ok, o.elems.map Prod.snd))
      = .ok (⟨3⟩, true, coverFlags coversOneFail 0
          [sampleProduct, sampleProduct, sampleProduct].length) :=
  ⟨(C7_failure_granularity ⟨3⟩ ⟨"2018-01-01", "2023-12-31", 50, "500w"⟩ coversOneFail).1,
   (C7_failure_granularity ⟨3⟩ ⟨"2018-01-01", "2023-12-31", 50, "500w"⟩ coversOneFail).2
     sampleContent3 [sampleProduct, sampleProduct, sampleProduct] rfl (by decide)⟩

/-- C8 counterexample: a product whose `custom_attributes` object lacks
`publication_date` (here: empty) makes the extraction raise a KeyError
instead of recording the field as absent — extraction of the entry fails. -/
theorem C8_counterexample :
    extract_record [("custom_attributes", PVal.customObj [])] = .error .keyError := rfl

theorem lookup_map_self {β : Type} (m : String → β) :
    ∀ (fs : List String) (f : String), f ∈ fs →
      List.lookup f (fs.map (fun g => (g, m g))) = some (m f) := by
  intro fs
  induction fs with
  | nil => intro f hf; cases hf
  | cons g rest ih =>
      intro f hf
      rcases List.mem_cons.mp hf with rfl | hmem
      · simp [List.lookup]
      · by_cases hfg : f = g
        · subst hfg
          simp [List.lookup]
        · have hbeq : (f == g) = false := by simpa using hfg
          simp only [List.map_cons, List.lookup, hbeq]
          exact ih f hmem

theorem lookup_append_left {β : Type} (l1 l2 : List (String × β)) (f : String) (v : β)
    (h : List.lookup f l1 = some v) : List.lookup f (l1 ++ l2) = some v := by
  induction l1 with
  | nil => cases h
  | cons e rest ih =>
      rcases e with ⟨k, w⟩
      by_cases hk : f = k
      · subst hk
        simpa [List.lookup] using h
      · have hbeq : (f == k) = false := by simpa using hk
        simp only [List.lookup, List.cons_append, hbeq] at h ⊢
        exact ih h

theorem addCustomAttrs_appends (prod : Product) :
    ∀ (fs : List String) (data : Record) (rec : Record),
    addCustomAttrs prod fs data = .ok rec → ∃ tail, rec = data ++ tail := by
  intro fs
  induction fs with
  | nil =>
      intro data rec h
      exact ⟨[], by simpa [addCustomAttrs] using h.symm⟩
  | cons f rest ih =>
      intro data rec h
      unfold addCustomAttrs at h
      cases hg : getCustomAttr prod f with
      | error e => rw [hg] at h; cases h
      | ok v =>
          rw [hg] at h
          obtain ⟨tail, htail⟩ := ih (data ++ [(f, some v)]) rec h
          exact ⟨(f, some v) :: tail, by simpa using htail⟩

/-- C8 (amended): a top-level (base) field absent from the upstream product
is recorded in the BookRecord as absent (Python None) rather than defaulted,
and extraction still succeeds — provided the four custom-attribute fields
are present; a missing custom-attribute field instead raises, because those
are read with subscripts rather than `.get`. -/
theorem C8_base_fields_recorded (prod : Product) (h : productOk prod = true) :
    (extract_record prod).map (fun rec => base_fields.map (fun f => List.lookup f rec))
      = .ok (base_fields.map (fun f => some (List.lookup f prod))) := by
  obtain ⟨rec, hrec⟩ := extract_record_ok prod h
  rw [hrec]
  simp only [Except.map, Except.ok.injEq]
  apply List.map_congr_left
  intro f hf
  have hap := addCustomAttrs_appends prod custom_attr_fields
    (base_fields.map (fun g => (g, List.lookup g prod))) rec (by simpa [extract_record] using hrec)
  obtain ⟨tail, rfl⟩ := hap
  exact lookup_append_left _ tail f _ (lookup_map_self (fun g => List.lookup g prod) base_fields f hf)

/-- Witness for the amended C8: `sampleProduct` lacks the base fields
`authors`, `description`, `language`, `categories` and `url`; extraction
succeeds and records each of them as absent. -/
theorem C8_base_fields_recorded_witness :
    (extract_record sampleProduct).map
        (fun rec => base_fields.map (fun f => List.lookup f rec))
      = .ok (base_fields.map (fun f => some (List.lookup f sampleProduct))) :=
  C8_base_fields_recorded sampleProduct (by decide)

/-- C10: a cover fetch is recorded successful exactly when the HTTP status
is 200, and exactly then the image bytes are written to `isbn.jpeg`; a
response with any other status (arriving without a connection error) writes
no file, is counted as failed, and raises nothing — and a connection error
likewise yields a caught failure. -/
theorem C10_cover_success_iff_200 (url : String) (status : Nat) (bytes : String) :
    (status = 200 →
      retrieve_cover url (.resp status bytes)
        = (true, some (isbn_of_url url ++ ".jpeg", bytes))) ∧
    (status ≠ 200 → retrieve_cover url (.resp status bytes) = (false, none)) ∧
    retrieve_cover url .connError = (false, none) := by
  refine ⟨?_, ?_, rfl⟩
  · intro h
    simp [retrieve_cover, h]
  · intro h
    simp [retrieve_cover, h]

/-- Witness for C10 at a 404 and a 200 response on the same cover URL. -/
theorem C10_cover_success_iff_200_witness :
    retrieve_cover "https://learning/covers/9781000/500w" (.resp 404 "nf") = (false, none) ∧
    retrieve_cover "https://learning/covers/9781000/500w" (.resp 200 "img")
      = (true, some (isbn_of_url "https://learning/covers/9781000/500w" ++ ".jpeg", "img")) :=
  ⟨(C10_cover_success_iff_200 "https://learning/covers/9781000/500w" 404 "nf").2.1 (by decide),
   (C10_cover_success_iff_200 "https://learning/covers/9781000/500w" 200 "img").1 rfl⟩

/-! ## Merge-stage lemmas -/

theorem keyedEntries_eq {α : Type} :
    ∀ (entries : List (String × α)) (keys : List Nat),
    entries.map (fun e => fname_to_int e.1) = keys.map some →
    keyedEntries entries = some (keys.zip (entries.map Prod.snd)) := by
  intro entries
  induction entries with
  | nil =>
      intro keys h
      cases keys with
      | nil => rfl
      | cons k krest => cases h
  | cons e rest ih =>
      intro keys h
      cases keys with
      | nil => cases h
      | cons k krest =>
          simp only [List.map_cons, List.cons.injEq] at h
          obtain ⟨h1, h2⟩ := h
          simp [keyedEntries, h1, ih krest h2]

theorem readEntries_map_ok {α : Type} : ∀ l : List (Nat × List α),
    readEntries (l.map (fun p => (p.1, Except.ok (ε := Unit) p.2))) = some (l.map Prod.snd)
  | [] => rfl
  | p :: rest => by simp [readEntries, readEntries_map_ok rest]

theorem orderedInsert_map {β γ : Type} (g : β → γ) (r : β → β → Prop) (rc : γ → γ → Prop)
    [DecidableRel r] [DecidableRel rc] (hrel : ∀ a b, rc (g a) (g b) ↔ r a b) (a : β) :
    ∀ l : List β, List.orderedInsert rc (g a) (l.map g) = (List.orderedInsert r a l).map g := by
  intro l
  induction l with
  | nil => rfl
  | cons b rest ih =>
      simp only [List.map_cons, List.orderedInsert]
      by_cases h : r a b
      · rw [if_pos ((hrel a b).mpr h), if_pos h, List.map_cons, List.map_cons]
      · rw [if_neg (fun hc => h ((hrel a b).mp hc)), if_neg h, List.map_cons, ih]

theorem insertionSort_map {β γ : Type} (g : β → γ) (r : β → β → Prop) (rc : γ → γ → Prop)
    [DecidableRel r] [DecidableRel rc] (hrel : ∀ a b, rc (g a) (g b) ↔ r a b) :
    ∀ l : List β, List.insertionSort rc (l.map g) = (List.insertionSort r l).map g := by
  intro l
  induction l with
  | nil => rfl
  | cons b rest ih =>
      simp only [List.map_cons, List.insertionSort, ih,
        orderedInsert_map g r rc hrel]

/-- C4: on a listing of artifacts whose names all match the page pattern and
parse to pairwise-distinct numeric identifiers, the merge concatenates the
record sequences in strictly ascending numeric order of the parsed page
identifier — independent of the order the filesystem lists them in: the
output is the concatenation over a permutation of the (key, records) pairs
whose keys are strictly increasing. -/
theorem C4_merge_numeric_order {α : Type} (entries : List (String × Except Unit (List α)))
    (keys : List Nat) (contents : List (List α)) (dest : Option (List α))
    (hmatch : ∀ e ∈ entries, matchesPageName e.1 = true)
    (hkeys : entries.map (fun e => fname_to_int e.1) = keys.map some)
    (hnd : keys.Nodup)
    (hread : entries.map Prod.snd = contents.map Except.ok) :
    join_data_files (.ok entries) true dest
        = (true, .written (specMergedOutput (keys.zip contents))) ∧
    (((keys.zip contents).insertionSort (fun a b => a.1 ≤ b.1)).map Prod.fst).Pairwise (· < ·) ∧
    ((keys.zip contents).insertionSort (fun a b => a.1 ≤ b.1)).Perm (keys.zip contents) := by
  have hlenk : keys.length = entries.length := by
    have h := congrArg List.length hkeys
    simpa using h.symm
  have hlenc : contents.length = entries.length := by
    have h := congrArg List.length hread
    simpa using h.symm
  have hfilter : entries.filter (fun e => matchesPageName e.1) = entries :=
    List.filter_eq_self.mpr (fun e he => hmatch e he)
  have hkeyed : keyedEntries entries = some (keys.zip (entries.map Prod.snd)) :=
    keyedEntries_eq entries keys hkeys
  have hzip : keys.zip (entries.map Prod.snd)
      = (keys.zip contents).map (fun p => (p.1, Except.ok p.2)) := by
    rw [hread, List.zip_map_right]
    rfl
  have hsortmap :
      List.insertionSort (fun (a b : Nat × Except Unit (List α)) => a.1 ≤ b.1)
          ((keys.zip contents).map (fun p => (p.1, Except.ok p.2)))
        = ((keys.zip contents).insertionSort (fun a b => a.1 ≤ b.1)).map
            (fun p => (p.1, Except.ok p.2)) :=
    insertionSort_map _ _ _ (fun _ _ => Iff.rfl) _
  have hreadok := readEntries_map_ok
    ((keys.zip contents).insertionSort (fun a b => a.1 ≤ b.1))
  refine ⟨?_, ?_, List.perm_insertionSort _ _⟩
  · simp only [join_data_files, hfilter, hkeyed, hzip, hsortmap, hreadok, if_true,
      specMergedOutput]
  · have hsorted := List.sorted_insertionSort
      (fun (a b : Nat × List α) => a.1 ≤ b.1) (keys.zip contents)
    have hperm := List.perm_insertionSort
      (fun (a b : Nat × List α) => a.1 ≤ b.1) (keys.zip contents)
    have hfst : (keys.zip contents).map Prod.fst = keys :=
      List.map_fst_zip _ _ (by omega)
    have hndsort :
        (((keys.zip contents).insertionSort (fun a b => a.1 ≤ b.1)).map Prod.fst).Nodup := by
      have hp : (((keys.zip contents).insertionSort (fun a b => a.1 ≤ b.1)).map Prod.fst).Perm
          ((keys.zip contents).map Prod.fst) := hperm.map _
      rw [hfst] at hp
      exact hp.nodup_iff.mpr hnd
    have hle : List.Pairwise (fun (a b : Nat) => a ≤ b)
        (((keys.zip contents).insertionSort (fun a b => a.1 ≤ b.1)).map Prod.fst) := by
      rw [List.pairwise_map]
      exact hsorted
    exact (hle.and hndsort).imp (fun h => lt_of_le_of_ne h.1 h.2)

/-- Witness for C4 on the listing 2.json, 10.json, 1.json of the spec
scenario: the merged output is the numeric-order concatenation — records of
page 1, then page 2, then page 10. -/
theorem C4_merge_numeric_order_witness :
    specMergedOutput ([2, 10, 1].zip [[2], [10], [1]]) = ([1, 2, 10] : List Nat) ∧
    (join_data_files
        (.ok [("2.json", Except.ok [2]), ("10.json", Except.ok [10]),
              ("1.json", Except.ok [1])]) true none
      = (true, .written (specMergedOutput ([2, 10, 1].zip [[2], [10], [1]]))) ∧
    ((([2, 10, 1].zip [[2], [10], ([1] : List Nat)]).insertionSort
        (fun a b => a.1 ≤ b.1)).map Prod.fst).Pairwise (· < ·) ∧
    (([2, 10, 1].zip [[2], [10], ([1] : List Nat)]).insertionSort
        (fun a b => a.1 ≤ b.1)).Perm ([2, 10, 1].zip [[2], [10], [1]])) :=
  ⟨by decide,
   C4_merge_numeric_order
     [("2.json", Except.ok [2]), ("10.json", Except.ok [10]), ("1.json", Except.ok [1])]
     [2, 10, 1] [[2], [10], [1]] none (by decide) rfl (by decide) rfl⟩

/-- C9 counterexample: on a write failure the merge has already opened the
destination with mode 'w', truncating it — the prior content (here the
one-record list [7]) is lost and a truncated or partial file remains,
contradicting the no-truncation part of the claim. -/
theorem C9_counterexample :
    join_data_files (α := Nat) (.ok [("1.json", .ok [42])]) false (some [7])
      = (false, .truncated) ∧
    (DestState.truncated : DestState Nat) ≠ .intact (some [7]) := by
  exact ⟨rfl, by decide⟩

/-- C9 (amended): `join_data_files` never raises — every scan, key-parse,
read and write error is caught by the blanket handler and surfaces as the
`false` flag; the flag is `true` exactly on a complete write. But a write
failure happens after the destination was opened for (truncating) writing:
the function then reports `false` with the destination truncated, not with
its prior content preserved — scan, parse and read errors alone leave the
destination intact. -/
theorem C9_flag_and_truncation {α : Type}
    (listing : Except Unit (List (String × Except Unit (List α))))
    (dumpOk : Bool) (dest : Option (List α)) :
    (∀ recs, (join_data_files listing dumpOk dest).2 = .written recs →
      (join_data_files listing dumpOk dest).1 = true) ∧
    ((join_data_files listing dumpOk dest).2 = .intact dest ∨
      (join_data_files listing dumpOk dest).2 = .truncated →
      (join_data_files listing dumpOk dest).1 = false) ∧
    (dumpOk = false → (join_data_files listing dumpOk dest).1 = false) ∧
    ((join_data_files listing dumpOk dest).2 = .truncated → dumpOk = false) := by
  cases listing with
  | error e => refine ⟨?_, ?_, ?_, ?_⟩ <;> simp [join_data_files]
  | ok entries =>
      cases hk : keyedEntries (entries.filter (fun e => matchesPageName e.1)) with
      | none => refine ⟨?_, ?_, ?_, ?_⟩ <;> simp [join_data_files, hk]
      | some keyed =>
          cases hr : readEntries (keyed.insertionSort (fun a b => a.1 ≤ b.1)) with
          | none => refine ⟨?_, ?_, ?_, ?_⟩ <;> simp [join_data_files, hk, hr]
          | some contents =>
              cases dumpOk with
              | false => refine ⟨?_, ?_, ?_, ?_⟩ <;> simp [join_data_files, hk, hr]
              | true => refine ⟨?_, ?_, ?_, ?_⟩ <;> simp [join_data_files, hk, hr]

/-- Witness for the amended C9: a concrete write failure yields the `false`
flag (and, per the counterexample, a truncated destination). -/
theorem C9_flag_and_truncation_witness :
    (join_data_files (α := Nat) (.ok [("1.json", .ok [42])]) false (some [7])).1 = false :=
  (C9_flag_and_truncation (.ok [("1.json", .ok [42])]) false (some [7])).2.2.1 rfl

end PublishingTrends
